import Mathlib

/-!
Shallow embedding of the pyEIA client library (files `eia/api/base.py` and
`eia/api/series.py`) and proofs about its spec claims.

Modelling conventions:
* Python series-identifier strings and batch payloads are modelled as `List Char`
  (`Str`), so that joining on `';'` and splitting back are `List.intercalate`
  and `List.splitOn`.
* JSON scalar values appearing as periods, values and series metadata are the
  inductive `JValue` (the claims never inspect numeric payloads, so numbers are
  carried as rationals).
* Python dicts are ordered association lists; `assocSet` models a single-key
  update (overwrite in place, else append), matching dict insertion-order
  semantics, and `dictMerge a b` models `{**a, **b}`.
* The network is a pure oracle `net : PostRequest → Response`; the async
  generator `_get_data` drained to completion is the list of its per-batch
  request/response pairs, issued strictly in batch order.
* `pandas` operations are modelled only as far as the code uses them:
  `pd.DataFrame(pairs, columns=["period","value"])`, `DataFrame.assign` with
  scalar keyword values (broadcast to every row), and
  `pd.concat(_, ignore_index=True)`, which raises on an empty list of frames.
-/

namespace EIA

/-- Python strings for series identifiers and batch payloads, as character lists. -/
abbrev Str := List Char

/-- Model of `base.yield_chunks`: chunk an iterable into lists of at most `n` elements.
The Python generator takes one element `edge` from the iterator, then
`islice`s up to `n - 1` more into the same chunk, and stops as soon as the
iterator is exhausted — so an empty input yields no chunks at all. -/
def yield_chunks : List α → Nat → List (List α)
  | [], _ => []
  | x :: xs, n => (x :: xs.take (n - 1)) :: yield_chunks (xs.drop (n - 1)) n
termination_by l => l.length
decreasing_by
  simp only [List.length_drop, List.length_cons]
  omega

/-- JSON scalar payloads (period labels, observation values, metadata fields). -/
inductive JValue where
  | str : String → JValue
  | num : Rat → JValue
  | null : JValue
deriving DecidableEq

/-- One parsed series object of a batch response: its `"data"` field (the
ordered `[period, value]` pairs) together with the remaining metadata fields in
dict order.  `Series.to_dataframe` pops `"data"` and keyword-expands the rest,
which this split represents directly. -/
structure SeriesRec where
  data : List (JValue × JValue)
  meta : List (String × JValue)
deriving DecidableEq

/-- A raw per-batch response mapping: the `"series"` field when present (an
ordered list of series objects), plus every other field (request metadata). -/
structure Response where
  series : Option (List SeriesRec)
  meta : List (String × JValue)
deriving DecidableEq

/-- Python truthiness of an optional string: `None` and `""` are falsy. -/
def truthy : Option String → Bool
  | none => false
  | some s => !(s == "")

/-- The instance state set up by `BaseQuery._configure`: resolved API key,
default query parameters, and the composed endpoint URL. -/
structure BaseState where
  apikey : String
  params : List (String × String)
  url : String
deriving DecidableEq

def ROOT : String := "https://api.eia.gov"

/-- Model of `urllib.parse.urljoin` restricted to the one case the code exercises: an
absolute `https` root with empty path joined with a relative path. -/
def urljoin (root rel : String) : String := root ++ "/" ++ rel

/-- Model of `endpoint.endswith("/")`, computed on the string's character data. -/
def ends_with_slash (s : String) : Bool := s.data.getLast? == some '/'

/-- Model of `BaseQuery._configure`, together with `BaseQuery.__init__` which only calls
it: resolve `apikey or settings.APIKEY`, assert the result truthy, store the
default parameters and the endpoint URL.

`settingsAPIKEY` — Modelled from the spec: the module `eia.settings` is not in
the sources; per the spec it provides one process-wide configuration string
(the API credential), readable at construction time, which we pass as an
explicit optional parameter. -/
def configure (endpoint : String) (apikey settingsAPIKEY : Option String) :
    Except String BaseState :=
  let key := if truthy apikey then apikey else settingsAPIKEY
  if truthy key then
    .ok { apikey := key.getD ""
          params := [("api_key", key.getD ""), ("out", "json")]
          url := urljoin ROOT (if ends_with_slash endpoint then endpoint else endpoint ++ "/") }
  else
    .error "Missing required apikey."

/-- A GET request as issued by `BaseQuery._get`. -/
structure GetRequest where
  url : String
  params : List (String × String)
deriving DecidableEq

/-- A POST request as issued by `BaseQuery._post`: query parameters plus a
form body (whose values are batch payload strings). -/
structure PostRequest where
  url : String
  params : List (String × String)
  body : List (String × Str)
deriving DecidableEq

/-- Overwrite-or-append a single binding of an ordered dict, as Python dict
assignment does (also how `pandas.DataFrame.assign` treats one column). -/
def assocSet (d : List (String × α)) (kv : String × α) : List (String × α) :=
  if d.any (fun p => p.1 == kv.1) then
    d.map (fun p => if p.1 == kv.1 then (p.1, kv.2) else p)
  else d ++ [kv]

/-- Python `d.get(k)` / `d[k]` lookup on an ordered dict. -/
def dictGet (d : List (String × α)) (k : String) : Option α :=
  (d.find? (fun p => p.1 == k)).map (fun p => p.2)

/-- Python `{**a, **b}`: the bindings of `a` updated by those of `b`, with the
later mapping winning on key collision and its new keys appended in order. -/
def dictMerge (a b : List (String × α)) : List (String × α) := b.foldl assocSet a

/-- Model of `BaseQuery._get`: build `params = {**self._params, **data}` (a fresh dict)
and issue a GET.  The pair returns the request together with the instance state
after the call, which the method leaves untouched. -/
def BaseQuery_get (st : BaseState) (data : List (String × String)) :
    GetRequest × BaseState :=
  ({ url := st.url, params := dictMerge st.params data }, st)

/-- Model of `BaseQuery._post`: issue a POST with exactly the stored default parameters
as query parameters and the caller data as the request body; the instance state
is left untouched. -/
def BaseQuery_post (st : BaseState) (data : List (String × Str)) :
    PostRequest × BaseState :=
  ({ url := st.url, params := st.params, body := data }, st)

namespace Series

def endpoint : String := "series"

/-- Model of `Series.__post_init__`, the batching step.  Chunk the identifiers into
groups of at most 100 and join each group with `";"` into one payload string. -/
def post_init (series_ids : List Str) : List Str :=
  (yield_chunks series_ids 100).map (List.intercalate [';'])

/-- The state of a constructed `Series` object.  `series_ids` is `none` while
the attribute has never been assigned. -/
structure State where
  base : BaseState
  series_ids : Option (List Str)
deriving DecidableEq

/-- Constructing a `Series`: the class declares no `__init__` of its own, so
construction runs the inherited `BaseQuery.__init__`, which accepts only an
optional `apikey` and calls `self._configure(apikey)`.  Neither `BaseQuery` nor
`Series` is a dataclass, so the `__post_init__` hook is never invoked and the
`series_ids` attribute is never assigned during construction. -/
def construct (apikey settingsAPIKEY : Option String) : Except String State :=
  (configure endpoint apikey settingsAPIKEY).map
    (fun b => { base := b, series_ids := none })

/-- Model of `Series._get_data` drained to completion: one `_post` per stored batch
payload, strictly in batch order, each paired with the response the network
oracle returns for it. -/
def get_data (st : BaseState) (series_ids : List Str)
    (net : PostRequest → Response) : List (PostRequest × Response) :=
  series_ids.map (fun b =>
    let req := (BaseQuery_post st [("series_id", b)]).1
    (req, net req))

/-- Model of `Series.parse` applied to the drained response sequence: start from an
empty output list and, for each batch response in order, append every entry of
`group.get("series", [])`. -/
def parse (responses : List Response) : List SeriesRec :=
  responses.foldl (fun output group => output ++ group.series.getD []) []

/-- Model of `Series.to_dict`: synchronously drive `parse` over the batch responses. -/
def to_dict (st : BaseState) (series_ids : List Str)
    (net : PostRequest → Response) : List SeriesRec :=
  parse ((get_data st series_ids net).map Prod.snd)

end Series

/-- A pandas `DataFrame` as far as this code uses one: an ordered column list,
rows stored as ordered association lists (a column absent from a row reads as
NaN, i.e. `none`), and an explicit row index. -/
structure DataFrame where
  columns : List String
  rows : List (List (String × JValue))
  index : List Nat
deriving DecidableEq

/-- A cell of a row; a missing binding is pandas NaN. -/
def rowGet (row : List (String × JValue)) (c : String) : Option JValue :=
  dictGet row c

/-- Model of `pd.DataFrame(pairs, columns=["period", "value"])` over the popped `"data"`
field: one row per `[period, value]` pair, default dense 0-based index. -/
def pd_DataFrame (data : List (JValue × JValue)) : DataFrame :=
  { columns := ["period", "value"]
    rows := data.map (fun pv => [("period", pv.1), ("value", pv.2)])
    index := List.range data.length }

/-- Model of `df.assign(**meta)` with scalar keyword values: every existing column named
by `meta` is overwritten, every new key becomes a fresh column appended in
keyword order, and each scalar is broadcast to all rows; the index is kept. -/
def DataFrame.assign (df : DataFrame) (meta : List (String × JValue)) : DataFrame :=
  { columns := df.columns ++ (meta.map Prod.fst).filter (fun k => !df.columns.contains k)
    rows := df.rows.map (fun r => meta.foldl assocSet r)
    index := df.index }

/-- The non-concatenation-axis union performed by `pd.concat`: all columns in
order of first appearance across the frames. -/
def unionColumns (dfs : List DataFrame) : List String :=
  dfs.foldl (fun acc df => acc ++ df.columns.filter (fun c => !acc.contains c)) []

/-- Model of `pd.concat(dfs, ignore_index=True)`: raises `ValueError` when given no
objects; otherwise unions the columns, stacks all rows in order, and renumbers
the index densely from 0. -/
def pd_concat_ignore_index (dfs : List DataFrame) : Except String DataFrame :=
  match dfs with
  | [] => .error "No objects to concatenate"
  | _ =>
    .ok { columns := unionColumns dfs
          rows := (dfs.map DataFrame.rows).flatten
          index := List.range ((dfs.map (fun d => d.rows.length)).sum) }

namespace Series

/-- The body of the `to_dataframe` loop for one parsed series record: a
two-column period/value frame from the popped `"data"`, assigned the remaining
metadata fields as broadcast columns when `include_metadata` is set (its
default in the source is `True`). -/
def per_record_frame (include_metadata : Bool) (s : SeriesRec) : DataFrame :=
  let df := pd_DataFrame s.data
  if include_metadata then df.assign s.meta else df

/-- The tail of `Series.to_dataframe` after the records have been collected:
build one frame per record and concatenate them with `ignore_index=True`. -/
def to_dataframe_of_records (records : List SeriesRec) (include_metadata : Bool) :
    Except String DataFrame :=
  pd_concat_ignore_index (records.map (per_record_frame include_metadata))

/-- Model of `Series.to_dataframe`: collect the parsed records synchronously, then
reshape them into one combined frame. -/
def to_dataframe (st : BaseState) (series_ids : List Str)
    (net : PostRequest → Response) (include_metadata : Bool) :
    Except String DataFrame :=
  to_dataframe_of_records (parse ((get_data st series_ids net).map Prod.snd))
    include_metadata

end Series

/-- A concrete configured instance, as produced by a construction call with
credential `"k"`; used by the concrete-input theorems. -/
def st0 : BaseState :=
  { apikey := "k"
    params := [("api_key", "k"), ("out", "json")]
    url := "https://api.eia.gov/series/" }

/-- A stub network oracle answering every batch request with an empty series
list and no other fields. -/
def stubNet : PostRequest → Response := fun _ => { series := some [], meta := [] }

/-! ## Lemmas about the batching step -/

theorem yield_chunks_flatten (l : List α) (n : Nat) :
    (yield_chunks l n).flatten = l := by
  induction l, n using yield_chunks.induct with
  | case1 n => simp [yield_chunks]
  | case2 x xs n ih =>
    rw [yield_chunks]
    simp [ih, List.take_append_drop]

theorem yield_chunks_length (l : List α) (n : Nat) (hn : 1 ≤ n) :
    (yield_chunks l n).length = (l.length + (n - 1)) / n := by
  induction l, n using yield_chunks.induct with
  | case1 n =>
    simp only [yield_chunks, List.length_nil, Nat.zero_add]
    rw [Nat.div_eq_of_lt (by omega)]
  | case2 x xs n ih =>
    rw [yield_chunks]
    simp only [List.length_cons, List.length_drop] at *
    rw [ih hn]
    have hr : xs.length + 1 + (n - 1) = xs.length + n := by omega
    rw [hr, Nat.add_div_right _ (by omega)]
    rcases Nat.lt_or_ge xs.length (n - 1) with h | h
    · have h1 : xs.length - (n - 1) = 0 := by omega
      rw [h1]
      rw [Nat.div_eq_of_lt (by omega), Nat.div_eq_of_lt (by omega)]
    · have h2 : xs.length - (n - 1) + (n - 1) = xs.length := by omega
      rw [h2, Nat.add_comm]

theorem yield_chunks_mem (l : List α) (n : Nat) (hn : 1 ≤ n) :
    ∀ c ∈ yield_chunks l n, c.length ≤ n ∧ c ≠ [] := by
  induction l, n using yield_chunks.induct with
  | case1 n => simp [yield_chunks]
  | case2 x xs n ih =>
    rw [yield_chunks]
    intro c hc
    rcases List.mem_cons.mp hc with h | h
    · subst h
      constructor
      · simp only [List.length_cons, List.length_take]
        omega
      · simp
    · exact ih hn c h

theorem yield_chunks_single (l : List α) (n : Nat) (h0 : l ≠ []) (hl : l.length ≤ n) :
    yield_chunks l n = [l] := by
  match l with
  | [] => exact absurd rfl h0
  | x :: xs =>
    rw [yield_chunks]
    simp only [List.length_cons] at hl
    rw [List.take_of_length_le (by omega), List.drop_eq_nil_of_le (by omega)]
    simp [yield_chunks]

theorem post_init_empty : Series.post_init [] = [] := by
  simp [Series.post_init, yield_chunks]

theorem post_init_roundtrip (ids : List Str) (h : ∀ s ∈ ids, ';' ∉ s) :
    ((Series.post_init ids).map (fun s => s.splitOn ';')).flatten = ids := by
  unfold Series.post_init
  rw [List.map_map]
  have hmem : ∀ c ∈ yield_chunks ids 100, ∀ s ∈ c, s ∈ ids := by
    intro c hc s hs
    rw [← yield_chunks_flatten ids 100]
    exact List.mem_flatten.mpr ⟨c, hc, hs⟩
  have hcongr : ∀ c ∈ yield_chunks ids 100,
      ((fun s => s.splitOn ';') ∘ List.intercalate [';']) c = c := by
    intro c hc
    have hne : c ≠ [] := (yield_chunks_mem ids 100 (by omega) c hc).2
    have hx : ∀ s ∈ c, ';' ∉ s := fun s hs => h s (hmem c hc s hs)
    exact List.splitOn_intercalate c ';' hx hne
  calc ((yield_chunks ids 100).map ((fun s => s.splitOn ';') ∘ List.intercalate [';'])).flatten
      = ((yield_chunks ids 100).map id).flatten := by
        rw [List.map_congr_left hcongr]
        simp
    _ = ids := by rw [List.map_id]; exact yield_chunks_flatten ids 100

/-! ## Lemmas about ordered-dict operations -/

theorem dictMerge_cons (q : List (String × α)) (kv : String × α) (tl : List (String × α)) :
    dictMerge q (kv :: tl) = dictMerge (assocSet q kv) tl := rfl

theorem dictGet_assocSet (d : List (String × α)) (kv : String × α) (k : String) :
    dictGet (assocSet d kv) k = if k = kv.1 then some kv.2 else dictGet d k := by
  unfold assocSet dictGet
  by_cases hany : d.any (fun p => p.1 == kv.1)
  · rw [if_pos hany, List.find?_map]
    have hcomp : ((fun p : String × α => p.1 == k) ∘
        (fun p : String × α => if p.1 == kv.1 then (p.1, kv.2) else p)) =
        (fun p : String × α => p.1 == k) := by
      funext p
      by_cases h : p.1 = kv.1 <;> simp [h]
    rw [hcomp]
    cases hfind : d.find? (fun p => p.1 == k) with
    | none =>
      by_cases hk : k = kv.1
      · exfalso
        obtain ⟨e, he, hpe⟩ := List.any_eq_true.mp hany
        have h2 := List.find?_eq_none.mp hfind e he
        simp only [beq_iff_eq] at hpe h2
        exact h2 (hk ▸ hpe)
      · simp [hk]
    | some e =>
      have hpe := List.find?_some hfind
      simp only [beq_iff_eq] at hpe
      by_cases hk : k = kv.1
      · simp [hk, hpe, hk ▸ hpe]
      · have h3 : ¬ (e.1 = kv.1) := by rw [hpe]; exact hk
        simp [hk, h3]
  · rw [if_neg hany, List.find?_append]
    cases hfind : d.find? (fun p => p.1 == k) with
    | none =>
      by_cases hk : k = kv.1
      · simp [List.find?, Option.or, hk]
      · have h3 : (kv.1 == k) = false := by
          simp only [beq_eq_false_iff_ne, ne_eq]
          exact fun h => hk h.symm
        simp [List.find?, Option.or, hk, h3]
    | some e =>
      by_cases hk : k = kv.1
      · exfalso
        have hpe := List.find?_some hfind
        simp only [beq_iff_eq] at hpe
        simp only [List.any_eq_true, not_exists] at hany
        exact hany e ⟨List.mem_of_find?_eq_some hfind, by simp [hpe, hk]⟩
      · simp [Option.or, hk]

theorem dictGet_dictMerge_of_notMem (q d : List (String × α)) (k : String)
    (hk : k ∉ d.map Prod.fst) :
    dictGet (dictMerge q d) k = dictGet q k := by
  induction d generalizing q with
  | nil => rfl
  | cons kv tl ih =>
    simp only [List.map_cons, List.mem_cons, not_or] at hk
    rw [dictMerge_cons, ih (assocSet q kv) hk.2, dictGet_assocSet, if_neg hk.1]

theorem dictGet_dictMerge (p d : List (String × α)) (k : String)
    (hd : (d.map Prod.fst).Nodup) :
    dictGet (dictMerge p d) k = (dictGet d k).elim (dictGet p k) some := by
  induction d generalizing p with
  | nil => rfl
  | cons kv tl ih =>
    simp only [List.map_cons, List.nodup_cons] at hd
    rw [dictMerge_cons]
    by_cases hk : k = kv.1
    · subst hk
      rw [dictGet_dictMerge_of_notMem (assocSet p kv) tl _ hd.1]
      rw [dictGet_assocSet, if_pos rfl]
      simp [dictGet, List.find?]
    · rw [ih (assocSet p kv) hd.2, dictGet_assocSet, if_neg hk]
      have h3 : (kv.1 == k) = false := by
        simp only [beq_eq_false_iff_ne, ne_eq]
        exact fun h => hk h.symm
      simp [dictGet, List.find?, h3]

theorem dictGet_of_mem (d : List (String × α)) (k : String) (v : α)
    (hd : (d.map Prod.fst).Nodup) (hkv : (k, v) ∈ d) :
    dictGet d k = some v := by
  induction d with
  | nil => exact absurd hkv (List.not_mem_nil _)
  | cons kv tl ih =>
    simp only [List.map_cons, List.nodup_cons] at hd
    rcases List.mem_cons.mp hkv with h | h
    · rw [← h]
      simp [dictGet, List.find?]
    · have hk : ¬ (kv.1 = k) := by
        intro hh
        exact hd.1 (hh ▸ (List.mem_map.mpr ⟨(k, v), h, rfl⟩))
      have h3 : (kv.1 == k) = false := by
        simp only [beq_eq_false_iff_ne, ne_eq]
        exact hk
      simp only [dictGet, List.find?, h3]
      exact ih hd.2 h

/-! ## Lemmas about response collection -/

theorem parse_eq_flatten (rs : List Response) :
    Series.parse rs = (rs.map (fun g => g.series.getD [])).flatten := by
  unfold Series.parse
  suffices h : ∀ acc : List SeriesRec,
      rs.foldl (fun output group => output ++ group.series.getD []) acc =
        acc ++ (rs.map (fun g => g.series.getD [])).flatten by
    simpa using h []
  induction rs with
  | nil => simp
  | cons g tl ih =>
    intro acc
    simp only [List.foldl_cons, List.map_cons, List.flatten_cons]
    rw [ih (acc ++ g.series.getD [])]
    simp [List.append_assoc]

theorem parse_append (a b : List Response) :
    Series.parse (a ++ b) = Series.parse a ++ Series.parse b := by
  simp [parse_eq_flatten]

/-! ## Lemmas about the DataFrame model -/

theorem pd_concat_ignore_index_ok (dfs : List DataFrame) (h : dfs ≠ []) :
    pd_concat_ignore_index dfs = Except.ok
      { columns := unionColumns dfs
        rows := (dfs.map DataFrame.rows).flatten
        index := List.range ((dfs.map (fun d => d.rows.length)).sum) } := by
  cases dfs with
  | nil => exact absurd rfl h
  | cons d tl => rfl

theorem unionColumns_aux_mem (dfs : List DataFrame) (acc : List String) (c : String) :
    (c ∈ dfs.foldl (fun acc df => acc ++ df.columns.filter (fun x => !acc.contains x)) acc) ↔
      (c ∈ acc ∨ ∃ df ∈ dfs, c ∈ df.columns) := by
  induction dfs generalizing acc with
  | nil => simp
  | cons d tl ih =>
    simp only [List.foldl_cons]
    rw [ih]
    simp only [List.mem_append, List.mem_filter, Bool.not_eq_true', List.mem_cons]
    constructor
    · rintro (((h | ⟨h1, _⟩) | ⟨df, hdf, hc⟩))
      · exact Or.inl h
      · exact Or.inr ⟨d, Or.inl rfl, h1⟩
      · exact Or.inr ⟨df, Or.inr hdf, hc⟩
    · rintro (h | ⟨df, (heq | hmem), hc⟩)
      · exact Or.inl (Or.inl h)
      · subst heq
        by_cases hacc : c ∈ acc
        · exact Or.inl (Or.inl hacc)
        · refine Or.inl (Or.inr ⟨hc, ?_⟩)
          simpa using hacc
      · exact Or.inr ⟨df, hmem, hc⟩

theorem mem_unionColumns (dfs : List DataFrame) (c : String) :
    c ∈ unionColumns dfs ↔ ∃ df ∈ dfs, c ∈ df.columns := by
  unfold unionColumns
  rw [unionColumns_aux_mem]
  simp

theorem unionColumns_aux_nodup (dfs : List DataFrame) (acc : List String)
    (hacc : acc.Nodup) (hdf : ∀ df ∈ dfs, df.columns.Nodup) :
    (dfs.foldl (fun acc df =>
      acc ++ df.columns.filter (fun x => !acc.contains x)) acc).Nodup := by
  induction dfs generalizing acc with
  | nil => simpa
  | cons d tl ih =>
    simp only [List.foldl_cons]
    apply ih
    · apply List.Nodup.append hacc
      · exact List.Nodup.filter _ (hdf d (List.mem_cons_self d tl))
      · intro a ha hb
        rw [List.mem_filter] at hb
        simp only [Bool.not_eq_true'] at hb
        exact absurd ha (by simpa using hb.2)
    · exact fun df hmem => hdf df (List.mem_cons_of_mem d hmem)

theorem unionColumns_nodup (dfs : List DataFrame)
    (h : ∀ df ∈ dfs, df.columns.Nodup) : (unionColumns dfs).Nodup :=
  unionColumns_aux_nodup dfs [] List.nodup_nil h

theorem unionColumns_aux_const (dfs : List DataFrame) (acc : List String)
    (h : ∀ df ∈ dfs, ∀ c ∈ df.columns, c ∈ acc) :
    dfs.foldl (fun acc df =>
      acc ++ df.columns.filter (fun x => !acc.contains x)) acc = acc := by
  induction dfs generalizing acc with
  | nil => rfl
  | cons d tl ih =>
    simp only [List.foldl_cons]
    have hnil : d.columns.filter (fun x => !acc.contains x) = [] := by
      rw [List.filter_eq_nil_iff]
      intro a ha
      simp only [Bool.not_eq_true', Bool.not_eq_false]
      exact List.elem_iff.mpr (h d (List.mem_cons_self d tl) a ha)
    rw [hnil, List.append_nil]
    exact ih acc (fun df hmem => h df (List.mem_cons_of_mem d hmem))

theorem unionColumns_const (dfs : List DataFrame) (cs : List String)
    (h : ∀ df ∈ dfs, df.columns = cs) (h0 : dfs ≠ []) : unionColumns dfs = cs := by
  cases dfs with
  | nil => exact absurd rfl h0
  | cons d tl =>
    unfold unionColumns
    simp only [List.foldl_cons]
    have hd : d.columns = cs := h d (List.mem_cons_self d tl)
    have hfil : d.columns.filter (fun x => !(([] : List String).contains x)) =
        d.columns := by
      apply List.filter_eq_self.mpr
      intro a _
      simp
    rw [hfil, List.nil_append, hd]
    apply unionColumns_aux_const
    intro df hmem c hc
    rw [h df (List.mem_cons_of_mem d hmem)] at hc
    exact hc

theorem per_record_frame_false_columns (s : SeriesRec) :
    (Series.per_record_frame false s).columns = ["period", "value"] := rfl

theorem per_record_frame_true_columns (s : SeriesRec) :
    (Series.per_record_frame true s).columns =
      ["period", "value"] ++ (s.meta.map Prod.fst).filter
        (fun k => !(["period", "value"] : List String).contains k) := rfl

theorem per_record_frame_true_rows (s : SeriesRec) :
    (Series.per_record_frame true s).rows =
      s.data.map (fun pv => dictMerge [("period", pv.1), ("value", pv.2)] s.meta) := by
  show ((pd_DataFrame s.data).assign s.meta).rows = _
  simp only [DataFrame.assign, pd_DataFrame, List.map_map]
  rfl

theorem per_record_frame_true_columns_nodup (s : SeriesRec)
    (hm : (s.meta.map Prod.fst).Nodup) :
    (Series.per_record_frame true s).columns.Nodup := by
  rw [per_record_frame_true_columns]
  apply List.Nodup.append
  · simp
  · exact List.Nodup.filter _ hm
  · intro a ha hb
    rw [List.mem_filter] at hb
    simp only [Bool.not_eq_true'] at hb
    exact absurd ha (by simpa using hb.2)

theorem mem_per_record_frame_true_columns (s : SeriesRec) (c : String) :
    c ∈ (Series.per_record_frame true s).columns ↔
      c = "period" ∨ c = "value" ∨ c ∈ s.meta.map Prod.fst := by
  rw [per_record_frame_true_columns]
  simp only [List.mem_append, List.mem_filter, List.mem_cons, List.not_mem_nil,
    or_false, Bool.not_eq_true']
  constructor
  · rintro ((h | h) | ⟨h1, _⟩)
    · exact Or.inl h
    · exact Or.inr (Or.inl h)
    · exact Or.inr (Or.inr h1)
  · rintro (h | h | h)
    · exact Or.inl (Or.inl h)
    · exact Or.inl (Or.inr h)
    · by_cases hpv : c = "period" ∨ c = "value"
      · exact Or.inl hpv
      · refine Or.inr ⟨h, ?_⟩
        simpa using hpv

theorem rowGet_per_record_frame (s : SeriesRec) (hm : (s.meta.map Prod.fst).Nodup)
    (row : List (String × JValue)) (hr : row ∈ (Series.per_record_frame true s).rows)
    (k : String) (v : JValue) (hkv : (k, v) ∈ s.meta) :
    rowGet row k = some v := by
  rw [per_record_frame_true_rows] at hr
  obtain ⟨pv, _, hrow⟩ := List.mem_map.mp hr
  rw [← hrow]
  unfold rowGet
  rw [dictGet_dictMerge _ _ _ hm, dictGet_of_mem s.meta k v hm hkv]
  rfl

theorem concat_index_range (dfs : List DataFrame) :
    List.range ((dfs.map (fun d => d.rows.length)).sum) =
      List.range (dfs.map DataFrame.rows).flatten.length := by
  rw [List.length_flatten, List.map_map]
  rfl

/-! ## Claim theorems -/

/-- Claim C1, counterexample.  The claim as stated fails at two inputs: for the
empty input (which has fewer than 100 identifiers) the batching step produces
zero batches rather than exactly one; and for the single identifier `"a;b"`,
which contains the separator, splitting the batch back on `';'` and
concatenating does not reproduce the original input. -/
theorem claim_C1_counterexample :
    (([] : List Str).length < 100 ∧ (Series.post_init []).length ≠ 1) ∧
    ((Series.post_init [['a', ';', 'b']]).map (fun s => s.splitOn ';')).flatten ≠
      [['a', ';', 'b']] := by
  have h1 : Series.post_init [['a', ';', 'b']] =
      [List.intercalate [';'] [['a', ';', 'b']]] := by
    simp [Series.post_init, yield_chunks]
  refine ⟨⟨by norm_num, ?_⟩, ?_⟩
  · rw [post_init_empty]
    simp
  · rw [h1]
    decide

/-- Claim C1 (amended): the batching step partitions the input in order into
chunks of at most 100 identifiers, each joined by `';'`; every *non-empty*
input of fewer than 100 identifiers gives exactly one batch holding all
identifiers joined in original order (the empty input gives zero batches);
inputs of exactly 100, 101 and 250 identifiers give 1, 2 and 3 batches; and
when no identifier contains the separator, splitting every batch back on the
separator and concatenating reproduces the original input exactly. -/
theorem claim_C1_batching (ids : List Str) :
    (yield_chunks ids 100).flatten = ids ∧
    (∀ c ∈ yield_chunks ids 100, c.length ≤ 100) ∧
    (ids ≠ [] → ids.length < 100 →
      Series.post_init ids = [List.intercalate [';'] ids]) ∧
    (ids.length = 100 → (Series.post_init ids).length = 1) ∧
    (ids.length = 101 → (Series.post_init ids).length = 2) ∧
    (ids.length = 250 → (Series.post_init ids).length = 3) ∧
    ((∀ s ∈ ids, ';' ∉ s) →
      ((Series.post_init ids).map (fun s => s.splitOn ';')).flatten = ids) := by
  have hlen : (Series.post_init ids).length = (ids.length + (100 - 1)) / 100 := by
    unfold Series.post_init
    rw [List.length_map]
    exact yield_chunks_length ids 100 (by omega)
  refine ⟨yield_chunks_flatten ids 100,
    fun c hc => (yield_chunks_mem ids 100 (by omega) c hc).1,
    ?_, ?_, ?_, ?_, post_init_roundtrip ids⟩
  · intro h0 hlt
    unfold Series.post_init
    rw [yield_chunks_single ids 100 h0 (by omega)]
    rfl
  · intro h
    rw [hlen, h]
  · intro h
    rw [hlen, h]
  · intro h
    rw [hlen, h]

/-- Claim C1 witness: the amended claim applied at concrete inputs — a two-element
separator-free input, and inputs of 100, 101 and 250 identifiers. -/
theorem claim_C1_batching_witness :
    Series.post_init [['a'], ['b']] = [List.intercalate [';'] [['a'], ['b']]] ∧
    ((Series.post_init [['a'], ['b']]).map (fun s => s.splitOn ';')).flatten =
      [['a'], ['b']] ∧
    (Series.post_init (List.replicate 100 ['a'])).length = 1 ∧
    (Series.post_init (List.replicate 101 ['a'])).length = 2 ∧
    (Series.post_init (List.replicate 250 ['a'])).length = 3 :=
  ⟨(claim_C1_batching [['a'], ['b']]).2.2.1 (by decide) (by decide),
   (claim_C1_batching [['a'], ['b']]).2.2.2.2.2.2 (by decide),
   (claim_C1_batching (List.replicate 100 ['a'])).2.2.2.1
     (by simp only [List.length_replicate]),
   (claim_C1_batching (List.replicate 101 ['a'])).2.2.2.2.1
     (by simp only [List.length_replicate]),
   (claim_C1_batching (List.replicate 250 ['a'])).2.2.2.2.2.1
     (by simp only [List.length_replicate])⟩

/-- Claim C2 (code bug): constructing a `Series` never computes the batch
sequence.  `Series.__post_init__` is a dataclass hook, but neither `Series`
nor `BaseQuery` is declared a dataclass and no `__init__` in the class
hierarchy invokes it, so whenever construction succeeds the `series_ids`
attribute is still unset — the docstring example `Series(id1, id2)` cannot
even run, since the inherited `BaseQuery.__init__` accepts only an optional
`apikey`. -/
theorem claim_C2_construct_no_batches (a s : Option String) (st : Series.State)
    (h : Series.construct a s = Except.ok st) : st.series_ids = none := by
  unfold Series.construct at h
  cases hc : configure Series.endpoint a s with
  | error e =>
    rw [hc] at h
    exact absurd h (by simp [Except.map])
  | ok b =>
    rw [hc] at h
    simp only [Except.map, Except.ok.injEq] at h
    rw [← h]

/-- Claim C2 witness: a successful concrete construction whose resulting state
has no batch sequence set. -/
theorem claim_C2_construct_no_batches_witness :
    ∃ st, Series.construct (some "k") none = Except.ok st ∧ st.series_ids = none :=
  ⟨{ base := st0, series_ids := none }, rfl,
    claim_C2_construct_no_batches (some "k") none _ rfl⟩

/-- Claim C3, counterexample: for the empty input the batching step does not
produce one batch with the empty payload; it produces no batches at all. -/
theorem claim_C3_counterexample : Series.post_init [] ≠ [([] : Str)] := by
  rw [post_init_empty]
  decide

/-- Claim C3 (amended): for the empty input the batching step produces zero
batches, and consequently the per-batch submission loop issues no requests at
all. -/
theorem claim_C3_empty_input (st : BaseState) (net : PostRequest → Response) :
    Series.post_init [] = [] ∧
    Series.get_data st (Series.post_init []) net = [] := by
  rw [post_init_empty]
  exact ⟨rfl, rfl⟩

/-- Claim C4, counterexample: with zero identifiers (zero batches), and a stub
service answering every request with an empty series list, the list form does
return `[]`, but the table form does not return an empty table: `pd.concat`
is invoked with no objects and raises `ValueError`. -/
theorem claim_C4_counterexample :
    Series.to_dict st0 (Series.post_init []) stubNet = [] ∧
    Series.to_dataframe st0 (Series.post_init []) stubNet true =
      Except.error "No objects to concatenate" := by
  rw [post_init_empty]
  exact ⟨rfl, rfl⟩

/-- Claim C4 (amended): for a query whose identifier input is empty — so the
batching step yields no batches and no request is issued — and any network
oracle whose responses all carry an empty series list, `to_dict` returns the
empty list without error, while `to_dataframe` (in either metadata mode)
fails with the pandas `ValueError` raised by concatenating no objects,
instead of returning an empty table. -/
theorem claim_C4_empty_query (st : BaseState) (net : PostRequest → Response)
    (_hnet : ∀ req, (net req).series = some []) (b : Bool) :
    Series.to_dict st (Series.post_init []) net = [] ∧
    Series.to_dataframe st (Series.post_init []) net b =
      Except.error "No objects to concatenate" := by
  rw [post_init_empty]
  exact ⟨rfl, rfl⟩

/-- Claim C4 witness: the amended claim at the concrete stub oracle. -/
theorem claim_C4_empty_query_witness :
    Series.to_dict st0 (Series.post_init []) stubNet = [] ∧
    Series.to_dataframe st0 (Series.post_init []) stubNet false =
      Except.error "No objects to concatenate" :=
  claim_C4_empty_query st0 stubNet (fun _ => rfl) false

/-- Claim C5: credential resolution at construction.  With no truthy caller
credential and no truthy process-wide value, `_configure` fails with the
configuration error — and performs no network activity, since `configure`
never consults a network oracle at all.  With a truthy credential from either
source, construction succeeds and stores that credential. -/
theorem claim_C5_configure (endpoint : String) (apikey settingsAPIKEY : Option String) :
    (truthy apikey = false → truthy settingsAPIKEY = false →
      configure endpoint apikey settingsAPIKEY =
        Except.error "Missing required apikey.") ∧
    (truthy apikey = true →
      ∃ st, configure endpoint apikey settingsAPIKEY = Except.ok st ∧
        some st.apikey = apikey) ∧
    (truthy apikey = false → truthy settingsAPIKEY = true →
      ∃ st, configure endpoint apikey settingsAPIKEY = Except.ok st ∧
        some st.apikey = settingsAPIKEY) := by
  refine ⟨?_, ?_, ?_⟩
  · intro h1 h2
    simp [configure, h1, h2]
  · intro h1
    cases apikey with
    | none => simp [truthy] at h1
    | some s =>
      refine ⟨{ apikey := s,
                params := [("api_key", s), ("out", "json")],
                url := urljoin ROOT
                  (if ends_with_slash endpoint then endpoint
                   else endpoint ++ "/") }, ?_, rfl⟩
      simp [configure, h1]
  · intro h1 h2
    cases settingsAPIKEY with
    | none => simp [truthy] at h2
    | some s =>
      refine ⟨{ apikey := s,
                params := [("api_key", s), ("out", "json")],
                url := urljoin ROOT
                  (if ends_with_slash endpoint then endpoint
                   else endpoint ++ "/") }, ?_, rfl⟩
      simp [configure, h1, h2]

/-- Claim C5 witness: the three branches at concrete inputs — no credential at
all, a caller credential, and a process-wide fallback credential. -/
theorem claim_C5_configure_witness :
    configure "series" none none = Except.error "Missing required apikey." ∧
    (∃ st, configure "series" (some "k") none = Except.ok st ∧
      some st.apikey = some "k") ∧
    (∃ st, configure "series" none (some "k") = Except.ok st ∧
      some st.apikey = some "k") :=
  ⟨(claim_C5_configure "series" none none).1 rfl rfl,
   (claim_C5_configure "series" (some "k") none).2.1 (by decide),
   (claim_C5_configure "series" none (some "k")).2.2 rfl (by decide)⟩

/-- Claim C10: an explicitly supplied empty-string credential is falsy to the
`or` in `_configure`, so it behaves exactly like an omitted credential:
construction resolves the process-wide value instead, stores that fallback
when it is truthy, never stores the empty string, and fails with the
configuration error when the fallback is also absent or empty. -/
theorem claim_C10_empty_credential (endpoint : String) (settingsAPIKEY : Option String) :
    (configure endpoint (some "") settingsAPIKEY =
      configure endpoint none settingsAPIKEY) ∧
    (∀ st, configure endpoint (some "") settingsAPIKEY = Except.ok st →
      st.apikey ≠ "" ∧ some st.apikey = settingsAPIKEY) ∧
    (truthy settingsAPIKEY = false →
      configure endpoint (some "") settingsAPIKEY =
        Except.error "Missing required apikey.") := by
  have hfalse : truthy (some "") = false := rfl
  refine ⟨rfl, ?_, ?_⟩
  · intro st h
    cases hs : settingsAPIKEY with
    | none =>
      rw [hs] at h
      simp [configure, truthy] at h
    | some s =>
      rw [hs] at h
      by_cases he : s = ""
      · subst he
        simp [configure, truthy] at h
      · have ht : truthy (some s) = true := by simp [truthy, he]
        simp only [configure, hfalse, Bool.false_eq_true, if_false, ht, if_true,
          Except.ok.injEq] at h
        rw [← h]
        exact ⟨he, rfl⟩
  · intro h2
    cases hs : settingsAPIKEY with
    | none => simp [configure, truthy]
    | some s =>
      rw [hs] at h2
      simp [configure, truthy] at h2 ⊢
      simp [h2]

/-- Claim C10 witness: with fallback `"k"` the fallback is stored and is not the
empty string; with no fallback the configuration error is raised. -/
theorem claim_C10_empty_credential_witness :
    (st0.apikey ≠ "" ∧ some st0.apikey = some "k") ∧
    configure "series" (some "") none = Except.error "Missing required apikey." :=
  ⟨(claim_C10_empty_credential "series" (some "k")).2.1 st0 rfl,
   (claim_C10_empty_credential "series" none).2.2 rfl⟩

/-- Claim C6: a batch response lacking the `"series"` field contributes zero
records and raises no error — collecting the whole sequence equals collecting
the surrounding batches, so collection continues with the remaining ones. -/
theorem claim_C6_missing_series_field (pre post : List Response) (g : Response)
    (hg : g.series = none) :
    Series.parse (pre ++ g :: post) = Series.parse pre ++ Series.parse post := by
  have hsplit : pre ++ g :: post = (pre ++ [g]) ++ post := by simp
  rw [hsplit, parse_append, parse_append]
  have hone : Series.parse [g] = [] := by
    simp [Series.parse, hg]
  rw [hone]
  simp

/-- Claim C6 witness: the theorem applied at a concrete three-batch response
sequence whose middle response has no series field. -/
theorem claim_C6_missing_series_field_witness :
    Series.parse ([{ series := some [{ data := [], meta := [] }], meta := [] }] ++
        { series := none, meta := [("request", JValue.str "runs")] } ::
        [{ series := some [], meta := [] }]) =
      Series.parse [{ series := some [{ data := [], meta := [] }], meta := [] }] ++
      Series.parse [{ series := some [], meta := [] }] :=
  claim_C6_missing_series_field _ _ _ rfl

/-- Claim C7: the collection step (to-list) returns the concatenation, in batch
order and then within-batch emission order, of every batch response's series
list, as one flat list; and collection depends only on the series fields —
responses agreeing on their series lists parse identically, so every field
outside the series list is discarded. -/
theorem claim_C7_collection (st : BaseState) (series_ids : List Str)
    (net : PostRequest → Response) (rs rs' : List Response)
    (hmeta : rs.map Response.series = rs'.map Response.series) :
    Series.to_dict st series_ids net =
      ((Series.get_data st series_ids net).map
        (fun pr => pr.2.series.getD [])).flatten ∧
    Series.parse rs = Series.parse rs' := by
  constructor
  · unfold Series.to_dict
    rw [parse_eq_flatten, List.map_map]
    rfl
  · rw [parse_eq_flatten, parse_eq_flatten]
    have h2 : rs.map (fun g => g.series.getD []) =
        (rs.map Response.series).map (fun o => o.getD []) := by
      rw [List.map_map]
      rfl
    have h3 : rs'.map (fun g => g.series.getD []) =
        (rs'.map Response.series).map (fun o => o.getD []) := by
      rw [List.map_map]
      rfl
    rw [h2, h3, hmeta]

/-- Claim C7 witness: the theorem at a concrete query and at two concrete
response lists that differ only outside their series fields. -/
theorem claim_C7_collection_witness :
    Series.to_dict st0 [['i']] stubNet =
      ((Series.get_data st0 [['i']] stubNet).map
        (fun pr => pr.2.series.getD [])).flatten ∧
    Series.parse [{ series := some [{ data := [], meta := [] }],
                    meta := [("request", JValue.str "dropped")] }] =
      Series.parse [{ series := some [{ data := [], meta := [] }], meta := [] }] :=
  claim_C7_collection st0 [['i']] stubNet _ _ rfl

/-- Claim C9: `_get` sends the stored defaults merged with the caller data, the
caller winning on every key collision, and the stored defaults are identical
before and after the call (the merge builds a fresh mapping); `_post` likewise
leaves the stored defaults unchanged and sends exactly them as query
parameters, with the caller data only as the request body. -/
theorem claim_C9_request_params (st : BaseState) (data : List (String × String))
    (body : List (String × Str)) (hd : (data.map Prod.fst).Nodup) :
    ((BaseQuery_get st data).2.params = st.params) ∧
    (∀ k, dictGet (BaseQuery_get st data).1.params k =
      (dictGet data k).elim (dictGet st.params k) some) ∧
    ((BaseQuery_post st body).2.params = st.params) ∧
    ((BaseQuery_post st body).1.params = st.params) ∧
    ((BaseQuery_post st body).1.body = body) :=
  ⟨rfl, fun k => dictGet_dictMerge st.params data k hd, rfl, rfl, rfl⟩

/-- Claim C9 witness: the merge at a concrete colliding key — the stored default
`("out", "json")` is overridden by the caller's `("out", "xml")` in the sent
parameters, while the stored defaults are untouched. -/
theorem claim_C9_request_params_witness :
    ((BaseQuery_get st0 [("out", "xml")]).2.params = st0.params) ∧
    dictGet (BaseQuery_get st0 [("out", "xml")]).1.params "out" =
      (dictGet [("out", "xml")] "out").elim (dictGet st0.params "out") some :=
  ⟨(claim_C9_request_params st0 [("out", "xml")] [] (by decide)).1,
   (claim_C9_request_params st0 [("out", "xml")] [] (by decide)).2.1 "out"⟩

/-- Claim C8: for every non-empty collection of parsed series records (whose
metadata mappings, being Python dicts, have duplicate-free keys), the
reshaping step succeeds in both metadata modes and:
with include-metadata off the combined table has exactly the columns
`period`, `value`; with it on (the source default) the columns are exactly —
without duplication — `period`, `value`, and every metadata field present on
any input record; every row derived from a given record carries that record's
metadata values; the combined rows are the per-record tables stacked in
record order; and in both modes the row index is the dense 0-based sequence,
however many per-record tables were concatenated. -/
theorem claim_C8_to_dataframe (records : List SeriesRec) (h0 : records ≠ [])
    (hm : ∀ r ∈ records, (r.meta.map Prod.fst).Nodup) :
    ∃ dOff dOn,
      Series.to_dataframe_of_records records false = Except.ok dOff ∧
      Series.to_dataframe_of_records records true = Except.ok dOn ∧
      dOff.columns = ["period", "value"] ∧
      dOff.index = List.range dOff.rows.length ∧
      dOn.index = List.range dOn.rows.length ∧
      dOn.columns.Nodup ∧
      (∀ c, c ∈ dOn.columns ↔
        c = "period" ∨ c = "value" ∨ ∃ r ∈ records, c ∈ r.meta.map Prod.fst) ∧
      dOn.rows = (records.map (fun r => (Series.per_record_frame true r).rows)).flatten ∧
      (∀ r ∈ records, ∀ row ∈ (Series.per_record_frame true r).rows,
        ∀ k v, (k, v) ∈ r.meta → rowGet row k = some v) := by
  have hOffne : records.map (Series.per_record_frame false) ≠ [] := by
    simpa using h0
  have hOnne : records.map (Series.per_record_frame true) ≠ [] := by
    simpa using h0
  refine ⟨_, _,
    pd_concat_ignore_index_ok (records.map (Series.per_record_frame false)) hOffne,
    pd_concat_ignore_index_ok (records.map (Series.per_record_frame true)) hOnne,
    ?_, ?_, ?_, ?_, ?_, ?_, ?_⟩
  · apply unionColumns_const _ _ _ hOffne
    intro df hdf
    obtain ⟨r, _, hfr⟩ := List.mem_map.mp hdf
    rw [← hfr]
    exact per_record_frame_false_columns r
  · exact concat_index_range (records.map (Series.per_record_frame false))
  · exact concat_index_range (records.map (Series.per_record_frame true))
  · apply unionColumns_nodup
    intro df hdf
    obtain ⟨r, hr, hfr⟩ := List.mem_map.mp hdf
    rw [← hfr]
    exact per_record_frame_true_columns_nodup r (hm r hr)
  · intro c
    rw [mem_unionColumns]
    constructor
    · rintro ⟨df, hdf, hc⟩
      obtain ⟨r, hr, hfr⟩ := List.mem_map.mp hdf
      rw [← hfr] at hc
      rcases (mem_per_record_frame_true_columns r c).mp hc with h | h | h
      · exact Or.inl h
      · exact Or.inr (Or.inl h)
      · exact Or.inr (Or.inr ⟨r, hr, h⟩)
    · have hhead : ∃ r0, r0 ∈ records := by
        cases records with
        | nil => exact absurd rfl h0
        | cons r tl => exact ⟨r, List.mem_cons_self r tl⟩
      obtain ⟨r0, hr0⟩ := hhead
      rintro (h | h | ⟨r, hr, h⟩)
      · exact ⟨Series.per_record_frame true r0, List.mem_map_of_mem _ hr0,
          (mem_per_record_frame_true_columns r0 c).mpr (Or.inl h)⟩
      · exact ⟨Series.per_record_frame true r0, List.mem_map_of_mem _ hr0,
          (mem_per_record_frame_true_columns r0 c).mpr (Or.inr (Or.inl h))⟩
      · exact ⟨Series.per_record_frame true r, List.mem_map_of_mem _ hr,
          (mem_per_record_frame_true_columns r c).mpr (Or.inr (Or.inr h))⟩
  · rw [List.map_map]
    rfl
  · intro r hr row hrow k v hkv
    exact rowGet_per_record_frame r (hm r hr) row hrow k v hkv

/-- Claim C8 witness: two concrete records with three data points between them
and differing metadata fields. -/
theorem claim_C8_to_dataframe_witness :
    ∃ dOff dOn,
      Series.to_dataframe_of_records
        [{ data := [(JValue.str "2020", JValue.num 1),
                    (JValue.str "2021", JValue.num 2)],
           meta := [("units", JValue.str "BTU")] },
         { data := [(JValue.str "2020", JValue.num 3)],
           meta := [("name", JValue.str "x"), ("units", JValue.str "MW")] }]
        false = Except.ok dOff ∧
      Series.to_dataframe_of_records
        [{ data := [(JValue.str "2020", JValue.num 1),
                    (JValue.str "2021", JValue.num 2)],
           meta := [("units", JValue.str "BTU")] },
         { data := [(JValue.str "2020", JValue.num 3)],
           meta := [("name", JValue.str "x"), ("units", JValue.str "MW")] }]
        true = Except.ok dOn ∧
      dOff.columns = ["period", "value"] ∧
      dOff.index = List.range dOff.rows.length ∧
      dOn.index = List.range dOn.rows.length ∧
      dOn.columns.Nodup ∧
      (∀ c, c ∈ dOn.columns ↔
        c = "period" ∨ c = "value" ∨
          ∃ r ∈ [({ data := [(JValue.str "2020", JValue.num 1),
                             (JValue.str "2021", JValue.num 2)],
                    meta := [("units", JValue.str "BTU")] } : SeriesRec),
                 { data := [(JValue.str "2020", JValue.num 3)],
                   meta := [("name", JValue.str "x"), ("units", JValue.str "MW")] }],
            c ∈ r.meta.map Prod.fst) ∧
      dOn.rows = ([({ data := [(JValue.str "2020", JValue.num 1),
                              (JValue.str "2021", JValue.num 2)],
                      meta := [("units", JValue.str "BTU")] } : SeriesRec),
                   { data := [(JValue.str "2020", JValue.num 3)],
                     meta := [("name", JValue.str "x"), ("units", JValue.str "MW")] }].map
          (fun r => (Series.per_record_frame true r).rows)).flatten ∧
      (∀ r ∈ [({ data := [(JValue.str "2020", JValue.num 1),
                          (JValue.str "2021", JValue.num 2)],
                 meta := [("units", JValue.str "BTU")] } : SeriesRec),
              { data := [(JValue.str "2020", JValue.num 3)],
                meta := [("name", JValue.str "x"), ("units", JValue.str "MW")] }],
        ∀ row ∈ (Series.per_record_frame true r).rows,
        ∀ k v, (k, v) ∈ r.meta → rowGet row k = some v) :=
  claim_C8_to_dataframe
    [{ data := [(JValue.str "2020", JValue.num 1),
                (JValue.str "2021", JValue.num 2)],
       meta := [("units", JValue.str "BTU")] },
     { data := [(JValue.str "2020", JValue.num 3)],
       meta := [("name", JValue.str "x"), ("units", JValue.str "MW")] }]
    (by decide) (by decide)

end EIA
